import Mathlib

/-!
Verification of the rule-based scholarship decision engine in
src/SD23067_Lab3.py.  The core consists of two functions:

* rule_matches (rule, facts): checks every condition of a rule against a
  facts mapping, returning a boolean; malformed conditions, missing fields,
  unknown operators and comparison errors all yield a silent non-match.
* evaluate_applicant (facts, rules): collects the matched rules in rule-set
  order and resolves conflicts by maximum priority, taking the first
  maximum encountered (the behaviour of the builtin max over a list).

Values are scalars parsed from JSON: numbers, strings and booleans.
Numbers are modelled as rationals (the source compares parsed JSON
numbers, and numeric order on the decimal literals involved coincides
with rational order).  A comparison that would raise at runtime
(for example a number against a string under <) is modelled by applyOp
returning none; the source catches the exception and treats it as false.
-/

namespace Lab3

/-- A scalar JSON value as used for facts, condition fields and expected
values: a number, a string, or a boolean. -/
inductive Value where
  | num (q : Rat)
  | str (s : String)
  | bool (b : Bool)
deriving DecidableEq

/-- The five comparison operators of the OPERATORS table in the source. -/
inductive Op where
  | ge
  | le
  | gt
  | lt
  | eq
deriving DecidableEq

/-- The OPERATORS dictionary of the source: maps an operator symbol to the
comparison it denotes, and any other string to none. -/
def OPERATORS (s : String) : Option Op :=
  if s = ">=" then some Op.ge
  else if s = "<=" then some Op.le
  else if s = ">" then some Op.gt
  else if s = "<" then some Op.lt
  else if s = "==" then some Op.eq
  else none

/-- Dictionary lookup of an operator string: a non-string key is found
nowhere in the OPERATORS table. -/
def opOfValue : Value → Option Op
  | Value.str s => OPERATORS s
  | _ => none

/-- Numeric view of a value: Python compares booleans as the numbers 0
and 1, so both numbers and booleans have a numeric denotation. -/
def Value.toRat? : Value → Option Rat
  | Value.num q => some q
  | Value.bool b => some (if b then 1 else 0)
  | Value.str _ => none

/-- Comparison of two rationals under one of the five operators. -/
def ratCmp : Op → Rat → Rat → Bool
  | Op.ge, x, y => decide (y ≤ x)
  | Op.le, x, y => decide (x ≤ y)
  | Op.gt, x, y => decide (y < x)
  | Op.lt, x, y => decide (x < y)
  | Op.eq, x, y => decide (x = y)

/-- Lexicographic comparison of two strings under one of the five
operators, as Python compares strings. -/
def strCmp : Op → String → String → Bool
  | Op.ge, s, t => decide (t < s) || decide (s = t)
  | Op.le, s, t => decide (s < t) || decide (s = t)
  | Op.gt, s, t => decide (t < s)
  | Op.lt, s, t => decide (s < t)
  | Op.eq, s, t => decide (s = t)

/-- Applying an operator to two runtime values.  some b is a comparison
that returns b; none is a comparison that raises (ordering a number or a
boolean against a string).  Equality across incompatible types returns
false without raising, as in Python. -/
def applyOp (op : Op) (a b : Value) : Option Bool :=
  match a.toRat?, b.toRat? with
  | some x, some y => some (ratCmp op x y)
  | _, _ =>
    match a, b with
    | Value.str s, Value.str t => some (strCmp op s t)
    | _, _ =>
      match op with
      | Op.eq => some false
      | _ => none

/-- A facts mapping: an association of field names to scalar values, the
entries of the Python dict. -/
abbrev Facts := List (String × Value)

/-- Dictionary lookup of a condition field in the facts mapping: facts are
keyed by strings, so a non-string field is found nowhere. -/
def lookupFact (facts : Facts) : Value → Option Value
  | Value.str s => facts.lookup s
  | _ => none

/-- The action attached to a rule: both fields are optional in the JSON,
defaults are applied at use sites exactly as dict.get does. -/
structure Action where
  decision : Option String
  reason : Option String
deriving DecidableEq

/-- A rule as a JSON object: every attribute is optional, read through
dict.get with the defaults of the source.  A condition is a JSON array of
scalars of arbitrary length (well-formed ones have exactly three). -/
structure Rule where
  name : Option String
  priority : Option Int
  conditions : Option (List (List Value))
  action : Option Action
deriving DecidableEq

/-- The decision record returned by evaluate_applicant. -/
structure DecisionResult where
  decision : String
  reason : String
  matched_rules : List String
  selected_rule : Option String
deriving DecidableEq

/-- One iteration of the condition loop in rule_matches: arity check,
field lookup, operator lookup, then the guarded comparison whose raised
errors count as false. -/
def condOk (facts : Facts) (cond : List Value) : Bool :=
  match cond with
  | [field, opv, expected] =>
    match lookupFact facts field with
    | none => false
    | some actual =>
      match opOfValue opv with
      | none => false
      | some op => (applyOp op actual expected).getD false
  | _ => false

/-- rule_matches from the source: every condition of the rule must hold;
a missing conditions attribute defaults to the empty list. -/
def rule_matches (rule : Rule) (facts : Facts) : Bool :=
  (rule.conditions.getD []).all (fun c => condOk facts c)

/-- The priority key used by the conflict resolution: rule.get with
default 0. -/
def rulePriority (r : Rule) : Int :=
  r.priority.getD 0

/-- The display name of a rule: rule.get with the placeholder default. -/
def ruleName (r : Rule) : String :=
  r.name.getD "Unnamed rule"

/-- The matched list built by the loop in evaluate_applicant: every rule
whose conditions hold, in rule-set order. -/
def matchedOf (facts : Facts) (rules : List Rule) : List Rule :=
  rules.filter (fun r => rule_matches r facts)

/-- The builtin max over a nonempty list with a key function: scans left
to right and replaces the current best only on a strictly greater key, so
ties keep the earlier element. -/
def pyMax (key : Rule → Int) : Rule → List Rule → Rule
  | best, [] => best
  | best, r :: rs => pyMax key (if key best < key r then r else best) rs

/-- evaluate_applicant from the source: collect the matched rules, return
the fixed REVIEW record when none matched, otherwise build the result
from the action of the maximum-priority matched rule. -/
def evaluate_applicant (facts : Facts) (rules : List Rule) : DecisionResult :=
  match matchedOf facts rules with
  | [] =>
    { decision := "REVIEW"
      reason := "No rules matched for this applicant. Rules may need review."
      matched_rules := []
      selected_rule := none }
  | m :: ms =>
    let best := pyMax rulePriority m ms
    let action := best.action.getD ⟨none, none⟩
    { decision := action.decision.getD "REVIEW"
      reason := action.reason.getD ""
      matched_rules := (m :: ms).map ruleName
      selected_rule := some (ruleName best) }

/-- The five rules of DEFAULT_RULES_JSON in the source, as parsed data. -/
def DEFAULT_RULES : List Rule :=
  [ { name := some "Top merit candidate"
      priority := some 100
      conditions := some
        [ [Value.str "cgpa", Value.str ">=", Value.num (mkRat 37 10)],
          [Value.str "co_curricular_score", Value.str ">=", Value.num 80],
          [Value.str "family_income", Value.str "<=", Value.num 8000],
          [Value.str "disciplinary_actions", Value.str "==", Value.num 0] ]
      action := some
        { decision := some "AWARD_FULL"
          reason := some "Excellent academic & co-curricular performance, with acceptable need" } },
    { name := some "Good candidate - partial scholarship"
      priority := some 80
      conditions := some
        [ [Value.str "cgpa", Value.str ">=", Value.num (mkRat 33 10)],
          [Value.str "co_curricular_score", Value.str ">=", Value.num 60],
          [Value.str "family_income", Value.str "<=", Value.num 12000],
          [Value.str "disciplinary_actions", Value.str "<=", Value.num 1] ]
      action := some
        { decision := some "AWARD_PARTIAL"
          reason := some "Good academic & involvement record with moderate need" } },
    { name := some "Need-based review"
      priority := some 70
      conditions := some
        [ [Value.str "cgpa", Value.str ">=", Value.num (mkRat 25 10)],
          [Value.str "family_income", Value.str "<=", Value.num 4000] ]
      action := some
        { decision := some "REVIEW"
          reason := some "High need but borderline academic score" } },
    { name := some "Low CGPA – not eligible"
      priority := some 95
      conditions := some
        [ [Value.str "cgpa", Value.str "<", Value.num (mkRat 25 10)] ]
      action := some
        { decision := some "REJECT"
          reason := some "CGPA below minimum scholarship requirement" } },
    { name := some "Serious disciplinary record"
      priority := some 90
      conditions := some
        [ [Value.str "disciplinary_actions", Value.str ">=", Value.num 2] ]
      action := some
        { decision := some "REJECT"
          reason := some "Too many disciplinary records" } } ]

/-! Helper lemmas about the max-scan used for conflict resolution. -/

/-- The max-scan result is one of the scanned elements. -/
lemma pyMax_mem (key : Rule → Int) (b : Rule) (l : List Rule) :
    pyMax key b l ∈ b :: l := by
  induction l generalizing b with
  | nil => simp [pyMax]
  | cons r rs ih =>
    simp only [pyMax]
    split
    · exact List.mem_cons_of_mem b (ih r)
    · rcases List.mem_cons.mp (ih b) with h | h
      · rw [h]; exact List.mem_cons_self b (r :: rs)
      · exact List.mem_cons_of_mem b (List.mem_cons_of_mem r h)

/-- The max-scan result has a maximal key among the scanned elements. -/
lemma pyMax_le (key : Rule → Int) (b : Rule) (l : List Rule) :
    ∀ x ∈ b :: l, key x ≤ key (pyMax key b l) := by
  induction l generalizing b with
  | nil =>
    intro x hx
    rw [List.mem_singleton] at hx
    subst hx
    simp [pyMax]
  | cons r rs ih =>
    intro x hx
    simp only [pyMax]
    split
    case isTrue hbr =>
      rcases List.mem_cons.mp hx with hxb | hx2
      · rw [hxb]
        exact le_trans (le_of_lt hbr) (ih r r (List.mem_cons_self r rs))
      · exact ih r x hx2
    case isFalse hbr =>
      rcases List.mem_cons.mp hx with hxb | hx2
      · rw [hxb]
        exact ih b b (List.mem_cons_self b rs)
      · rcases List.mem_cons.mp hx2 with hxr | hx3
        · rw [hxr]
          exact le_trans (not_lt.mp hbr) (ih b b (List.mem_cons_self b rs))
        · exact ih b x (List.mem_cons_of_mem b hx3)

/-- The max-scan either keeps its seed or moves to a strictly greater key:
the accumulator is replaced only on a strict increase. -/
lemma pyMax_eq_or_lt (key : Rule → Int) (b : Rule) (l : List Rule) :
    pyMax key b l = b ∨ key b < key (pyMax key b l) := by
  induction l generalizing b with
  | nil => left; rfl
  | cons r rs ih =>
    simp only [pyMax]
    split
    case isTrue hbr =>
      right
      rcases ih r with h | h
      · rw [h]; exact hbr
      · exact lt_trans hbr h
    case isFalse hbr => exact ih b

/-- The max-scan result is the FIRST element of the list that attains the
maximal key: scanning for the first element with a key at least that of
the max-scan result finds the max-scan result itself. -/
lemma pyMax_find (key : Rule → Int) (b : Rule) (l : List Rule) :
    (b :: l).find? (fun x => decide (key (pyMax key b l) ≤ key x)) =
      some (pyMax key b l) := by
  induction l generalizing b with
  | nil => simp [pyMax]
  | cons r rs ih =>
    simp only [pyMax]
    split
    case isTrue hbr =>
      have hble : key r ≤ key (pyMax key r rs) :=
        pyMax_le key r rs r (List.mem_cons_self r rs)
      have hpredb : ¬ (decide (key (pyMax key r rs) ≤ key b) = true) := by
        simp only [decide_eq_true_eq, not_le]
        exact lt_of_lt_of_le hbr hble
      rw [@List.find?_cons_of_neg Rule
        (fun x => decide (key (pyMax key r rs) ≤ key x)) b (r :: rs) hpredb]
      exact ih r
    case isFalse hbr =>
      by_cases hwb : key (pyMax key b rs) ≤ key b
      · have hfix : pyMax key b rs = b := by
          rcases pyMax_eq_or_lt key b rs with h | h
          · exact h
          · exact absurd hwb (not_le.mpr h)
        rw [hfix]
        exact List.find?_cons_of_pos _ (by simp)
      · have hpredb : ¬ (decide (key (pyMax key b rs) ≤ key b) = true) := by
          simpa using hwb
        have hpredr : ¬ (decide (key (pyMax key b rs) ≤ key r) = true) := by
          simp only [decide_eq_true_eq]
          intro hler
          exact hwb (le_trans hler (not_lt.mp hbr))
        rw [@List.find?_cons_of_neg Rule
          (fun x => decide (key (pyMax key b rs) ≤ key x)) b (r :: rs) hpredb]
        rw [@List.find?_cons_of_neg Rule
          (fun x => decide (key (pyMax key b rs) ≤ key x)) r rs hpredr]
        have hres := ih b
        rw [@List.find?_cons_of_neg Rule
          (fun x => decide (key (pyMax key b rs) ≤ key x)) b rs hpredb] at hres
        exact hres

/-- find? only looks at members, so pointwise equal predicates find the
same result. -/
lemma find?_congr_mem {α : Type} (p q : α → Bool) :
    ∀ l : List α, (∀ x ∈ l, p x = q x) → l.find? p = l.find? q := by
  intro l
  induction l with
  | nil => intro _; rfl
  | cons a t ih =>
    intro h
    have ha := h a (List.mem_cons_self a t)
    by_cases hpa : p a = true
    · rw [List.find?_cons_of_pos _ hpa, List.find?_cons_of_pos _ (ha ▸ hpa)]
    · rw [List.find?_cons_of_neg _ hpa, List.find?_cons_of_neg _ (ha ▸ hpa)]
      exact ih (fun x hx => h x (List.mem_cons_of_mem a hx))

/-- Dispatch lemma: the shape of the result of evaluate_applicant when the
matched list is nonempty. -/
lemma evaluate_applicant_cons (facts : Facts) (rules : List Rule)
    (m : Rule) (ms : List Rule) (hmk : matchedOf facts rules = m :: ms) :
    evaluate_applicant facts rules =
      { decision :=
          ((pyMax rulePriority m ms).action.getD ⟨none, none⟩).decision.getD "REVIEW"
        reason :=
          ((pyMax rulePriority m ms).action.getD ⟨none, none⟩).reason.getD ""
        matched_rules := (m :: ms).map ruleName
        selected_rule := some (ruleName (pyMax rulePriority m ms)) } := by
  unfold evaluate_applicant
  rw [hmk]

/-- Dispatch lemma: the fixed result of evaluate_applicant when the
matched list is empty. -/
lemma evaluate_applicant_nil (facts : Facts) (rules : List Rule)
    (hmk : matchedOf facts rules = []) :
    evaluate_applicant facts rules =
      { decision := "REVIEW"
        reason := "No rules matched for this applicant. Rules may need review."
        matched_rules := []
        selected_rule := none } := by
  unfold evaluate_applicant
  rw [hmk]

/-! Claim theorems. -/

/-- Claim C1: for every facts mapping and rule list in which at least one
rule matches, evaluate_applicant returns a result whose selected_rule is
the name of a matched rule of maximum priority, whose decision and reason
are copied from the action of that winning rule (decision defaulting to
REVIEW and reason to the empty string when absent), and whose
matched_rules is the list of names of every matched rule in rule-set
order. -/
theorem evaluate_wins_max_priority (facts : Facts) (rules : List Rule)
    (h : ∃ r ∈ rules, rule_matches r facts = true) :
    ∃ w ∈ matchedOf facts rules,
      (∀ r ∈ matchedOf facts rules, rulePriority r ≤ rulePriority w) ∧
      evaluate_applicant facts rules =
        { decision := (w.action.getD ⟨none, none⟩).decision.getD "REVIEW"
          reason := (w.action.getD ⟨none, none⟩).reason.getD ""
          matched_rules := (matchedOf facts rules).map ruleName
          selected_rule := some (ruleName w) } := by
  obtain ⟨r0, hr0, hm0⟩ := h
  have hmem : r0 ∈ matchedOf facts rules := List.mem_filter.mpr ⟨hr0, hm0⟩
  cases hmk : matchedOf facts rules with
  | nil =>
    rw [hmk] at hmem
    exact absurd hmem (List.not_mem_nil r0)
  | cons m ms =>
    refine ⟨pyMax rulePriority m ms, ?_, ?_, ?_⟩
    · exact pyMax_mem rulePriority m ms
    · exact pyMax_le rulePriority m ms
    · rw [evaluate_applicant_cons facts rules m ms hmk]

/-- A one-rule fixture that matches every facts mapping. -/
def ruleAlways : Rule :=
  { name := some "A"
    priority := some 1
    conditions := some []
    action := some { decision := some "OK", reason := some "fine" } }

/-- Witness for Claim C1 at a concrete one-rule input. -/
theorem evaluate_wins_max_priority_witness :
    ∃ w ∈ matchedOf [] [ruleAlways],
      (∀ r ∈ matchedOf [] [ruleAlways], rulePriority r ≤ rulePriority w) ∧
      evaluate_applicant [] [ruleAlways] =
        { decision := (w.action.getD ⟨none, none⟩).decision.getD "REVIEW"
          reason := (w.action.getD ⟨none, none⟩).reason.getD ""
          matched_rules := (matchedOf [] [ruleAlways]).map ruleName
          selected_rule := some (ruleName w) } :=
  evaluate_wins_max_priority [] [ruleAlways] (by decide)

/-- Claim C2 counterexample: no rule matches the empty rule list, yet the
reason the code returns differs from the fixed string stated by the
claim. -/
theorem evaluate_no_match_reason_cex :
    (evaluate_applicant [] []).reason ≠ "no rules matched — may need review" := by
  decide

/-- Claim C2 (amended): for every facts mapping and rule list in which no
rule matches, evaluate_applicant returns decision REVIEW, the fixed
explanatory reason of the source ("No rules matched for this applicant.
Rules may need review."), an empty matched_rules list and no selected
rule. -/
theorem evaluate_no_match (facts : Facts) (rules : List Rule)
    (h : ∀ r ∈ rules, rule_matches r facts = false) :
    evaluate_applicant facts rules =
      { decision := "REVIEW"
        reason := "No rules matched for this applicant. Rules may need review."
        matched_rules := []
        selected_rule := none } := by
  apply evaluate_applicant_nil
  unfold matchedOf
  rw [List.filter_eq_nil_iff]
  intro r hr
  simp [h r hr]

/-- Witness for Claim C2 at a concrete non-matching input. -/
theorem evaluate_no_match_witness :
    evaluate_applicant []
        [{ name := some "A"
           priority := some 1
           conditions := some [[Value.str "y", Value.str ">", Value.num 0]]
           action := none }] =
      { decision := "REVIEW"
        reason := "No rules matched for this applicant. Rules may need review."
        matched_rules := []
        selected_rule := none } :=
  evaluate_no_match _ _ (by decide)

/-- Claim C3: when two or more matched rules share the maximum priority,
evaluate_applicant selects the first maximal-priority matched rule in
rule-set order, and evaluating again with identical inputs yields the
identical result. -/
theorem evaluate_tie_first_in_order (facts : Facts) (rules : List Rule)
    (h : 2 ≤ ((matchedOf facts rules).filter
        (fun r => (matchedOf facts rules).all
          (fun s => decide (rulePriority s ≤ rulePriority r)))).length) :
    ∃ w, (matchedOf facts rules).find?
        (fun r => (matchedOf facts rules).all
          (fun s => decide (rulePriority s ≤ rulePriority r))) = some w ∧
      (evaluate_applicant facts rules).selected_rule = some (ruleName w) ∧
      evaluate_applicant facts rules = evaluate_applicant facts rules := by
  cases hmk : matchedOf facts rules with
  | nil =>
    rw [hmk] at h
    simp at h
  | cons m ms =>
    refine ⟨pyMax rulePriority m ms, ?_, ?_, rfl⟩
    · have hcong : ∀ x ∈ m :: ms,
          ((m :: ms).all (fun s => decide (rulePriority s ≤ rulePriority x)))
            = decide (rulePriority (pyMax rulePriority m ms) ≤ rulePriority x) := by
        intro x hx
        rw [Bool.eq_iff_iff]
        simp only [List.all_eq_true, decide_eq_true_eq]
        constructor
        · intro hall
          exact hall _ (pyMax_mem rulePriority m ms)
        · intro hle s hs
          exact le_trans (pyMax_le rulePriority m ms s hs) hle
      exact (find?_congr_mem _ _ (m :: ms) hcong).trans
        (pyMax_find rulePriority m ms)
    · rw [evaluate_applicant_cons facts rules m ms hmk]

/-- A fixture rule of priority 5 that matches unconditionally. -/
def tieRuleA : Rule :=
  { name := some "A"
    priority := some 5
    conditions := some []
    action := some { decision := some "DA", reason := some "ra" } }

/-- A second fixture rule of the same priority 5, also unconditional. -/
def tieRuleB : Rule :=
  { name := some "B"
    priority := some 5
    conditions := some []
    action := some { decision := some "DB", reason := some "rb" } }

/-- Witness for Claim C3 at a concrete two-rule tie. -/
theorem evaluate_tie_first_in_order_witness :
    ∃ w, (matchedOf [] [tieRuleA, tieRuleB]).find?
        (fun r => (matchedOf [] [tieRuleA, tieRuleB]).all
          (fun s => decide (rulePriority s ≤ rulePriority r))) = some w ∧
      (evaluate_applicant [] [tieRuleA, tieRuleB]).selected_rule =
        some (ruleName w) ∧
      evaluate_applicant [] [tieRuleA, tieRuleB] =
        evaluate_applicant [] [tieRuleA, tieRuleB] :=
  evaluate_tie_first_in_order [] [tieRuleA, tieRuleB] (by decide)

/-- The facts of the multi-match aggregation scenario: cgpa 3.8,
co-curricular score 85, family income 5000, no disciplinary actions. -/
def meritFacts : Facts :=
  [("cgpa", Value.num (mkRat 19 5)),
   ("co_curricular_score", Value.num 85),
   ("family_income", Value.num 5000),
   ("disciplinary_actions", Value.num 0)]

/-- Claim C4 counterexample: on the stated facts the second canonical rule
also matches (3.8 at least 3.3, 85 at least 60, 5000 at most 12000, 0 at
most 1), so matched_rules is not the singleton the claim asserts. -/
theorem default_rules_multi_match_cex :
    "Good candidate - partial scholarship" ∈
        (evaluate_applicant meritFacts DEFAULT_RULES).matched_rules ∧
      (evaluate_applicant meritFacts DEFAULT_RULES).matched_rules ≠
        ["Top merit candidate"] := by
  decide

/-- Claim C4 (amended): the stated facts evaluated against the five
canonical rules yield matched_rules containing exactly "Top merit
candidate" and "Good candidate - partial scholarship" in rule-set order,
selected_rule "Top merit candidate", and decision AWARD_FULL. -/
theorem default_rules_multi_match :
    evaluate_applicant meritFacts DEFAULT_RULES =
      { decision := "AWARD_FULL"
        reason := "Excellent academic & co-curricular performance, with acceptable need"
        matched_rules := ["Top merit candidate", "Good candidate - partial scholarship"]
        selected_rule := some "Top merit candidate" } := by
  decide

/-- The facts of the rejection precedence scenario: cgpa 2.0 and three
disciplinary actions. -/
def rejectFacts : Facts :=
  [("cgpa", Value.num 2), ("disciplinary_actions", Value.num 3)]

/-- Claim C5: with cgpa 2.0 and three disciplinary actions, exactly the
low-CGPA rule (priority 95) and the serious-disciplinary rule (priority
90) match among the five canonical rules, and the resolver selects the
higher-priority low-CGPA rule, yielding decision REJECT. -/
theorem default_rules_reject_precedence :
    (matchedOf rejectFacts DEFAULT_RULES).map ruleName =
        ["Low CGPA – not eligible", "Serious disciplinary record"] ∧
      (matchedOf rejectFacts DEFAULT_RULES).map rulePriority = [95, 90] ∧
      evaluate_applicant rejectFacts DEFAULT_RULES =
        { decision := "REJECT"
          reason := "CGPA below minimum scholarship requirement"
          matched_rules := ["Low CGPA – not eligible", "Serious disciplinary record"]
          selected_rule := some "Low CGPA – not eligible" } := by
  decide

/-- Claim C6: a rule owning a condition of the wrong arity, or one whose
operator symbol is not among the five supported ones, or one whose field
is absent from the facts, never matches: rule_matches returns false
rather than raising. -/
theorem rule_matches_malformed_nonmatch (rule : Rule) (facts : Facts)
    (h : ∃ cond ∈ rule.conditions.getD [],
        cond.length ≠ 3 ∨
        (∃ f op v, cond = [f, op, v] ∧ opOfValue op = none) ∨
        (∃ f op v, cond = [f, op, v] ∧ lookupFact facts f = none)) :
    rule_matches rule facts = false := by
  obtain ⟨cond, hmem, hbad⟩ := h
  have hc : condOk facts cond = false := by
    rcases hbad with hlen | ⟨f, op, v, heq, hop⟩ | ⟨f, op, v, heq, hf⟩
    · rcases cond with _ | ⟨a, _ | ⟨b, _ | ⟨c, _ | ⟨d, t⟩⟩⟩⟩
      · rfl
      · rfl
      · rfl
      · exact absurd rfl hlen
      · rfl
    · subst heq
      cases hlf : lookupFact facts f with
      | none => simp [condOk, hlf]
      | some actual => simp [condOk, hlf, hop]
    · subst heq
      simp [condOk, hf]
  cases hall : rule_matches rule facts with
  | false => rfl
  | true =>
    unfold rule_matches at hall
    have hcondtrue := List.all_eq_true.mp hall cond hmem
    rw [hc] at hcondtrue
    exact absurd hcondtrue (by simp)

/-- A fixture rule with a two-element (malformed) condition. -/
def malformedRule : Rule :=
  { name := some "bad"
    priority := none
    conditions := some [[Value.str "x", Value.str ">"]]
    action := none }

/-- Witness for Claim C6 at a concrete malformed rule. -/
theorem rule_matches_malformed_nonmatch_witness :
    rule_matches malformedRule [] = false :=
  rule_matches_malformed_nonmatch malformedRule []
    ⟨[Value.str "x", Value.str ">"], by decide, Or.inl (by decide)⟩

/-- Claim C7: when a supported operator applied to the actual and
expected values raises (modelled by applyOp returning none), the rule
does not match: the error is absorbed as false instead of propagating. -/
theorem rule_matches_error_nonmatch (rule : Rule) (facts : Facts)
    (h : ∃ cond ∈ rule.conditions.getD [], ∃ f opv v op actual,
        cond = [f, opv, v] ∧ lookupFact facts f = some actual ∧
        opOfValue opv = some op ∧ applyOp op actual v = none) :
    rule_matches rule facts = false := by
  obtain ⟨cond, hmem, f, opv, v, op, actual, heq, hf, hop, happ⟩ := h
  have hc : condOk facts cond = false := by
    subst heq
    simp [condOk, hf, hop, happ]
  cases hall : rule_matches rule facts with
  | false => rfl
  | true =>
    unfold rule_matches at hall
    have hcondtrue := List.all_eq_true.mp hall cond hmem
    rw [hc] at hcondtrue
    exact absurd hcondtrue (by simp)

/-- A fixture rule ordering a numeric field against a string, a
comparison that raises at runtime. -/
def typeErrorRule : Rule :=
  { name := some "cmp"
    priority := none
    conditions := some [[Value.str "x", Value.str "<", Value.str "hello"]]
    action := none }

/-- Witness for Claim C7 at a concrete type-incompatible comparison. -/
theorem rule_matches_error_nonmatch_witness :
    rule_matches typeErrorRule [("x", Value.num 5)] = false :=
  rule_matches_error_nonmatch typeErrorRule [("x", Value.num 5)]
    ⟨[Value.str "x", Value.str "<", Value.str "hello"], by decide,
      Value.str "x", Value.str "<", Value.str "hello", Op.lt, Value.num 5,
      rfl, rfl, rfl, rfl⟩

/-- Claim C8: a rule whose condition sequence is empty matches every
facts mapping unconditionally. -/
theorem rule_matches_empty_conditions (facts : Facts) (n : Option String)
    (p : Option Int) (a : Option Action) :
    rule_matches { name := n, priority := p, conditions := some [], action := a }
      facts = true :=
  rfl

/-- Claim C9: evaluate_applicant is a pure function of its two inputs:
evaluations at equal facts and equal rules are identical results.  The
embedding is a total function, so the source cannot mutate its arguments
or keep hidden state between calls. -/
theorem evaluate_applicant_pure (facts1 facts2 : Facts)
    (rules1 rules2 : List Rule) (hf : facts1 = facts2) (hr : rules1 = rules2) :
    evaluate_applicant facts1 rules1 = evaluate_applicant facts2 rules2 := by
  rw [hf, hr]

/-- Witness for Claim C9: two evaluations at the canonical rules agree. -/
theorem evaluate_applicant_pure_witness :
    evaluate_applicant [] DEFAULT_RULES = evaluate_applicant [] DEFAULT_RULES :=
  evaluate_applicant_pure [] [] DEFAULT_RULES DEFAULT_RULES rfl rfl

/-- Claim C10: a rule lacking the conditions attribute entirely behaves
exactly like one with an empty condition sequence: it matches every facts
mapping unconditionally. -/
theorem rule_matches_missing_conditions (facts : Facts) (n : Option String)
    (p : Option Int) (a : Option Action) :
    rule_matches { name := n, priority := p, conditions := none, action := a }
        facts =
      rule_matches { name := n, priority := p, conditions := some [], action := a }
        facts ∧
    rule_matches { name := n, priority := p, conditions := none, action := a }
      facts = true :=
  ⟨rfl, rfl⟩

end Lab3
